import Mathlib

set_option linter.unusedVariables false

/-!
Verification of the texture cache/lifecycle manager of the Pharaoh game
engine (`src/include/PgeTextureManager.h`).

The repository ships only the header: field declarations and the inline
accessors of `TextureItem` are source code, while the bodies of
`TextureItem::Load`, `TextureItem::Unload` and the `TextureManager`
operations exist only as declarations.  Those bodies are modelled here
from the specification.  External collaborators (image decoder, graphics
device binding layer) are passed in as explicit values: a decode result
`Option (Nat × Nat)` (original width/height on success), an allocation
result `Option Nat` (the device handle on success), a release outcome
`Bool`, and the set of currently allocated device handles `Finset Nat`.
-/

namespace PGE

/-- The sentinel value of the device texture handle (OpenGL texture id 0):
the handle a `TextureItem` holds while it is not loaded. -/
def sentinelTexture : Nat := 0

/-- Fields of `TextureItem` as declared in `PgeTextureManager.h`
(lines 35-39).  `UInt32`/`GLuint` dimensions and handle are modelled as
`Nat`. -/
structure TextureItem where
  mIsLoaded : Bool
  mImageFileName : String
  mWidth : Nat
  mHeight : Nat
  mOriginalWidth : Nat
  mOriginalHeight : Nat
  mTextureID : Nat
deriving DecidableEq, Repr

/-- Accessor `GetImageName` (header, inline): returns the stored file name. -/
def TextureItem.GetImageName (t : TextureItem) : String := t.mImageFileName

/-- Accessor `GetWidth` (header, inline): returns the stored canonical width. -/
def TextureItem.GetWidth (t : TextureItem) : Nat := t.mWidth

/-- Accessor `GetOriginalWidth` (header, inline): returns the stored original width. -/
def TextureItem.GetOriginalWidth (t : TextureItem) : Nat := t.mOriginalWidth

/-- Accessor `GetHeight` (header, inline): returns the stored canonical height. -/
def TextureItem.GetHeight (t : TextureItem) : Nat := t.mHeight

/-- Accessor `GetOriginalHeight` (header, inline): returns the stored original height. -/
def TextureItem.GetOriginalHeight (t : TextureItem) : Nat := t.mOriginalHeight

/-- Accessor `GetID` (header, inline): returns the stored device handle. -/
def TextureItem.GetID (t : TextureItem) : Nat := t.mTextureID

/-- Accessor `IsLoaded` (header, inline): returns the stored load state. -/
def TextureItem.IsLoaded (t : TextureItem) : Bool := t.mIsLoaded

/-- Modelled from the spec: the constructor `TextureItem(imageFileName)`
(body not in src/): stores the filename, initializes state to not-loaded,
zero dimensions, sentinel device handle; no I/O occurs at construction. -/
def TextureItem.create (imageFileName : String) : TextureItem :=
  { mIsLoaded := false
    mImageFileName := imageFileName
    mWidth := 0
    mHeight := 0
    mOriginalWidth := 0
    mOriginalHeight := 0
    mTextureID := sentinelTexture }

/-- Modelled from the spec: power-of-two canonicalization — the smallest
power of two that is greater than or equal to `n`. -/
def nextPow2 (n : Nat) : Nat := 2 ^ Nat.clog 2 n

/-- Modelled from the spec: the body of `TextureItem::Load` (not in src/).
If already loaded it returns true with no side effects; otherwise it asks
the decoder (`decodeResult`) for the original dimensions, canonicalizes
them to powers of two when `resizeIfNeeded`, and asks the device layer
(`allocResult`) for a handle.  On success it stores handle, canonical and
original dimensions and sets the loaded flag; on decode or allocation
failure it returns false with the item and the set of allocated device
handles `gpu` unchanged.  The filter and mipmap parameters are forwarded
to the device layer and do not affect the item's state. -/
def TextureItem.Load (t : TextureItem) (minFilter maxFilter : Nat)
    (forceMipmap resizeIfNeeded : Bool)
    (decodeResult : Option (Nat × Nat)) (allocResult : Option Nat)
    (gpu : Finset Nat) : Bool × TextureItem × Finset Nat :=
  if t.mIsLoaded then (true, t, gpu)
  else
    match decodeResult with
    | none => (false, t, gpu)
    | some (w, h) =>
      match allocResult with
      | none => (false, t, gpu)
      | some handle =>
        (true,
         { t with
            mIsLoaded := true
            mWidth := if resizeIfNeeded then nextPow2 w else w
            mHeight := if resizeIfNeeded then nextPow2 h else h
            mOriginalWidth := w
            mOriginalHeight := h
            mTextureID := handle },
         insert handle gpu)

/-- Modelled from the spec: the body of `TextureItem::Unload` (not in
src/).  If not loaded it is a no-op returning true; otherwise it asks the
device layer to release the stored handle (`releaseOk` is the outcome):
on success it resets the handle to the sentinel, clears the loaded flag,
keeps both dimension pairs and returns true; on release failure it
returns false leaving the item unchanged. -/
def TextureItem.Unload (t : TextureItem) (releaseOk : Bool)
    (gpu : Finset Nat) : Bool × TextureItem × Finset Nat :=
  if t.mIsLoaded then
    if releaseOk then
      (true,
       { t with mIsLoaded := false, mTextureID := sentinelTexture },
       gpu.erase t.mTextureID)
    else (false, t, gpu)
  else (true, t, gpu)

/-- The manager's map from image file name to texture item, modelled as
an association list with unique keys. -/
abbrev TextureMap := List (String × TextureItem)

/-- Lookup in the manager's map (`mTextureMap.find`). -/
def findItem (name : String) : TextureMap → Option TextureItem
  | [] => none
  | (k, v) :: rest => if k = name then some v else findItem name rest

/-- Erase the entry of a key from the manager's map (`mTextureMap.erase`). -/
def eraseItem (name : String) : TextureMap → TextureMap
  | [] => []
  | (k, v) :: rest =>
      if k = name then eraseItem name rest else (k, v) :: eraseItem name rest

/-- Replace the item stored under an existing key of the manager's map. -/
def updateItem (name : String) (t : TextureItem) : TextureMap → TextureMap
  | [] => []
  | (k, v) :: rest =>
      if k = name then (k, t) :: rest else (k, v) :: updateItem name t rest

/-- Number of entries of the map holding a given key. -/
def countKey (name : String) : TextureMap → Nat
  | [] => 0
  | (k, _) :: rest => (if k = name then 1 else 0) + countKey name rest

/-- Structure `TextureManager` (header): holds the map from image path to texture
item.  The singleton machinery is process-wide plumbing and is not part
of the state. -/
structure TextureManager where
  mTextureMap : TextureMap
deriving DecidableEq, Repr

/-- Modelled from the spec: the body of `TextureManager::AddImage` (not
in src/).  If an entry for the name already exists it returns false and
creates nothing; otherwise it inserts a new not-yet-loaded item keyed by
the filename and returns true. -/
def TextureManager.AddImage (m : TextureManager) (imageFileName : String) :
    Bool × TextureManager :=
  match findItem imageFileName m.mTextureMap with
  | some _ => (false, m)
  | none =>
      (true, ⟨(imageFileName, TextureItem.create imageFileName) :: m.mTextureMap⟩)

/-- Modelled from the spec: the body of `TextureManager::RemoveImage`
(not in src/).  If no entry exists it returns false; otherwise it unloads
the entry first (releasing the device resource) and erases the map entry,
returning true. -/
def TextureManager.RemoveImage (m : TextureManager) (imageFileName : String)
    (gpu : Finset Nat) : Bool × TextureManager × Finset Nat :=
  match findItem imageFileName m.mTextureMap with
  | none => (false, m, gpu)
  | some item =>
      (true, ⟨eraseItem imageFileName m.mTextureMap⟩,
       (item.Unload true gpu).2.2)

/-- Modelled from the spec: the body of `TextureManager::LoadImage` (not
in src/).  If no entry exists for the name it first registers it (as
`AddImage` would) and then loads it, returning the load outcome; if an
entry exists it delegates to that item's `Load`.  Either way the entry
remains registered afterwards. -/
def TextureManager.LoadImage (m : TextureManager) (imageFileName : String)
    (minFilter maxFilter : Nat) (forceMipmap resizeIfNeeded : Bool)
    (decodeResult : Option (Nat × Nat)) (allocResult : Option Nat)
    (gpu : Finset Nat) : Bool × TextureManager × Finset Nat :=
  match findItem imageFileName m.mTextureMap with
  | none =>
      let r := (TextureItem.create imageFileName).Load minFilter maxFilter
                  forceMipmap resizeIfNeeded decodeResult allocResult gpu
      (r.1, ⟨(imageFileName, r.2.1) :: m.mTextureMap⟩, r.2.2)
  | some item =>
      let r := item.Load minFilter maxFilter forceMipmap resizeIfNeeded
                  decodeResult allocResult gpu
      (r.1, ⟨updateItem imageFileName r.2.1 m.mTextureMap⟩, r.2.2)

/-- Modelled from the spec: the body of `TextureManager::GetTextureItemPtr`
(not in src/).  Pure lookup: returns the registered item for the name if
present, else none; it takes the map by value and returns only the item,
so it can neither load the item nor modify the map. -/
def TextureManager.GetTextureItemPtr (m : TextureManager)
    (textureName : String) : Option TextureItem :=
  findItem textureName m.mTextureMap

/-- `n` is a power of two. -/
def isPow2 (n : Nat) : Prop := ∃ k, n = 2 ^ k

/-- The state invariant of a `TextureItem`: the original dimensions never
exceed the canonical ones, and the device handle is non-sentinel iff the
item is loaded. -/
def TextureItem.Inv (t : TextureItem) : Prop :=
  t.mOriginalWidth ≤ t.mWidth ∧ t.mOriginalHeight ≤ t.mHeight ∧
  (t.mTextureID ≠ sentinelTexture ↔ t.mIsLoaded = true)

/-- The manager's invariant: every registered item satisfies its
invariant. -/
def TextureManager.Inv (m : TextureManager) : Prop :=
  ∀ p ∈ m.mTextureMap, p.2.Inv

/-- A concrete already-loaded item used in concrete instantiations. -/
def demoLoaded : TextureItem :=
  { mIsLoaded := true, mImageFileName := "a.png", mWidth := 4, mHeight := 4,
    mOriginalWidth := 4, mOriginalHeight := 4, mTextureID := 1 }

/-- A single `TextureItem` operation together with its collaborator
outcomes, used to quantify over arbitrary operation sequences. -/
inductive ItemOp where
  | load : Nat → Nat → Bool → Bool → Option (Nat × Nat) → Option Nat → ItemOp
  | unload : Bool → ItemOp

/-- Apply one operation to an item and the allocated-handle set. -/
def applyOp (s : TextureItem × Finset Nat) : ItemOp → TextureItem × Finset Nat
  | ItemOp.load mf xf fm rz d a => (s.1.Load mf xf fm rz d a s.2).2
  | ItemOp.unload rel => (s.1.Unload rel s.2).2

/-- Apply a sequence of operations. -/
def applyOps (s : TextureItem × Finset Nat) (ops : List ItemOp) :
    TextureItem × Finset Nat :=
  ops.foldl applyOp s

/-! ### Helper lemmas -/

theorem nextPow2_isPow2 (n : Nat) : isPow2 (nextPow2 n) := ⟨Nat.clog 2 n, rfl⟩

theorem le_nextPow2 (n : Nat) : n ≤ nextPow2 n := Nat.le_pow_clog one_lt_two n

theorem nextPow2_min (n k : Nat) (h : n ≤ 2 ^ k) : nextPow2 n ≤ 2 ^ k :=
  Nat.pow_le_pow_right (by norm_num)
    ((Nat.le_pow_iff_clog_le one_lt_two).1 h)

theorem nextPow2_char (n k : Nat) (h1 : n ≤ 2 ^ k)
    (h2 : ∀ j, j < k → 2 ^ j < n) : nextPow2 n = 2 ^ k := by
  refine le_antisymm (nextPow2_min n k h1) ?_
  obtain ⟨m, hm⟩ := nextPow2_isPow2 n
  have hn : n ≤ 2 ^ m := hm ▸ le_nextPow2 n
  rw [hm]
  refine Nat.pow_le_pow_right (by norm_num) ?_
  by_contra hlt
  push_neg at hlt
  exact absurd hn (not_le.2 (h2 m hlt))

theorem nextPow2_100 : nextPow2 100 = 128 :=
  nextPow2_char 100 7 (by norm_num) (fun j hj =>
    lt_of_le_of_lt
      (Nat.pow_le_pow_right (by norm_num) (show j ≤ 6 by omega))
      (by norm_num))

theorem nextPow2_50 : nextPow2 50 = 64 :=
  nextPow2_char 50 6 (by norm_num) (fun j hj =>
    lt_of_le_of_lt
      (Nat.pow_le_pow_right (by norm_num) (show j ≤ 5 by omega))
      (by norm_num))

theorem findItem_eraseItem_self (name : String) (l : TextureMap) :
    findItem name (eraseItem name l) = none := by
  induction l with
  | nil => rfl
  | cons p rest ih =>
    obtain ⟨k, v⟩ := p
    by_cases hk : k = name
    · simp [eraseItem, hk, ih]
    · simp [eraseItem, findItem, hk, ih]

theorem mem_eraseItem (name : String) (l : TextureMap)
    (p : String × TextureItem) (h : p ∈ eraseItem name l) : p ∈ l := by
  induction l with
  | nil => exact absurd h (by simp [eraseItem])
  | cons q rest ih =>
    obtain ⟨k, v⟩ := q
    by_cases hk : k = name
    · simp only [eraseItem, if_pos hk] at h
      exact List.mem_cons_of_mem _ (ih h)
    · simp only [eraseItem, if_neg hk] at h
      rcases List.mem_cons.1 h with h1 | h2
      · exact h1 ▸ List.mem_cons_self _ _
      · exact List.mem_cons_of_mem _ (ih h2)

theorem mem_updateItem (name : String) (v : TextureItem) (l : TextureMap)
    (p : String × TextureItem) (h : p ∈ updateItem name v l) :
    p.2 = v ∨ p ∈ l := by
  induction l with
  | nil => exact absurd h (by simp [updateItem])
  | cons q rest ih =>
    obtain ⟨k, w⟩ := q
    by_cases hk : k = name
    · simp only [updateItem, if_pos hk] at h
      rcases List.mem_cons.1 h with h1 | h2
      · exact Or.inl (by simp [h1])
      · exact Or.inr (List.mem_cons_of_mem _ h2)
    · simp only [updateItem, if_neg hk] at h
      rcases List.mem_cons.1 h with h1 | h2
      · exact Or.inr (h1 ▸ List.mem_cons_self _ _)
      · rcases ih h2 with h3 | h4
        · exact Or.inl h3
        · exact Or.inr (List.mem_cons_of_mem _ h4)

theorem findItem_updateItem (name : String) (v t : TextureItem)
    (l : TextureMap) (h : findItem name l = some t) :
    findItem name (updateItem name v l) = some v := by
  induction l with
  | nil => exact absurd h (by simp [findItem])
  | cons q rest ih =>
    obtain ⟨k, w⟩ := q
    by_cases hk : k = name
    · simp [updateItem, findItem, hk]
    · simp only [findItem, if_neg hk] at h
      simp [updateItem, findItem, hk, ih h]

theorem findItem_none_countKey (name : String) (l : TextureMap)
    (h : findItem name l = none) : countKey name l = 0 := by
  induction l with
  | nil => rfl
  | cons q rest ih =>
    obtain ⟨k, w⟩ := q
    by_cases hk : k = name
    · simp [findItem, hk] at h
    · simp only [findItem, if_neg hk] at h
      simp [countKey, hk, ih h]

theorem findItem_mem (name : String) (t : TextureItem) (l : TextureMap)
    (h : findItem name l = some t) : (name, t) ∈ l := by
  induction l with
  | nil => exact absurd h (by simp [findItem])
  | cons q rest ih =>
    obtain ⟨k, w⟩ := q
    by_cases hk : k = name
    · simp only [findItem, if_pos hk] at h
      injection h with h2
      subst hk; subst h2
      exact List.mem_cons_self _ _
    · simp only [findItem, if_neg hk] at h
      exact List.mem_cons_of_mem _ (ih h)

theorem findItem_isSome_iff (name : String) (l : TextureMap) :
    (findItem name l).isSome = true ↔ name ∈ l.map Prod.fst := by
  induction l with
  | nil => simp [findItem]
  | cons q rest ih =>
    obtain ⟨k, w⟩ := q
    by_cases hk : k = name
    · simp [findItem, hk]
    · simp [findItem, hk, ih, Ne.symm hk]

/-! ### Claim theorems -/

/-- C1: `TextureItem.Load` is idempotent: for every item whose `IsLoaded`
is true, `Load` with any filter/mipmap/resize arguments returns true,
performs no device allocation (the set of allocated handles is unchanged)
and leaves the item's state unchanged; hence a second `Load` in
succession also returns true. -/
theorem load_idempotent (t : TextureItem) (mf xf mf2 xf2 : Nat)
    (fm rz fm2 rz2 : Bool) (d d2 : Option (Nat × Nat)) (a a2 : Option Nat)
    (gpu : Finset Nat) (h : t.IsLoaded = true) :
    t.Load mf xf fm rz d a gpu = (true, t, gpu) ∧
    ((t.Load mf xf fm rz d a gpu).2.1.Load mf2 xf2 fm2 rz2 d2 a2
        (t.Load mf xf fm rz d a gpu).2.2) = (true, t, gpu) := by
  simp only [TextureItem.IsLoaded] at h
  constructor <;> simp [TextureItem.Load, h]

/-- C1 witness: a concrete loaded item, loaded twice. -/
theorem load_idempotent_witness :
    demoLoaded.IsLoaded = true ∧
    demoLoaded.Load 0 0 false true (some (8, 8)) (some 2) ∅ =
      (true, demoLoaded, ∅) ∧
    ((demoLoaded.Load 0 0 false true (some (8, 8)) (some 2) ∅).2.1.Load
        1 1 true false none none
        (demoLoaded.Load 0 0 false true (some (8, 8)) (some 2) ∅).2.2) =
      (true, demoLoaded, ∅) := by
  have h := load_idempotent demoLoaded 0 0 1 1 false true true false
    (some (8, 8)) none (some 2) none ∅ rfl
  exact ⟨rfl, h.1, h.2⟩

/-- C2: dimension canonicalization postcondition of `Load`: on a
successful load with `resizeIfNeeded = true`, `GetWidth`/`GetHeight`
return the smallest power of two ≥ the original on each axis
independently and `GetOriginalWidth`/`GetOriginalHeight` return the
pre-resize values; with `resizeIfNeeded = false`, canonical dimensions
equal original dimensions. -/
theorem load_pow2_canonicalization (t : TextureItem) (mf xf : Nat)
    (fm : Bool) (w h handle : Nat) (gpu : Finset Nat)
    (hnl : t.IsLoaded = false) :
    ((t.Load mf xf fm true (some (w, h)) (some handle) gpu).1 = true ∧
     isPow2 (t.Load mf xf fm true (some (w, h)) (some handle) gpu).2.1.GetWidth ∧
     w ≤ (t.Load mf xf fm true (some (w, h)) (some handle) gpu).2.1.GetWidth ∧
     (∀ k, w ≤ 2 ^ k →
       (t.Load mf xf fm true (some (w, h)) (some handle) gpu).2.1.GetWidth ≤ 2 ^ k) ∧
     isPow2 (t.Load mf xf fm true (some (w, h)) (some handle) gpu).2.1.GetHeight ∧
     h ≤ (t.Load mf xf fm true (some (w, h)) (some handle) gpu).2.1.GetHeight ∧
     (∀ k, h ≤ 2 ^ k →
       (t.Load mf xf fm true (some (w, h)) (some handle) gpu).2.1.GetHeight ≤ 2 ^ k) ∧
     (t.Load mf xf fm true (some (w, h)) (some handle) gpu).2.1.GetOriginalWidth = w ∧
     (t.Load mf xf fm true (some (w, h)) (some handle) gpu).2.1.GetOriginalHeight = h) ∧
    ((t.Load mf xf fm false (some (w, h)) (some handle) gpu).1 = true ∧
     (t.Load mf xf fm false (some (w, h)) (some handle) gpu).2.1.GetWidth = w ∧
     (t.Load mf xf fm false (some (w, h)) (some handle) gpu).2.1.GetHeight = h ∧
     (t.Load mf xf fm false (some (w, h)) (some handle) gpu).2.1.GetOriginalWidth = w ∧
     (t.Load mf xf fm false (some (w, h)) (some handle) gpu).2.1.GetOriginalHeight = h) := by
  simp only [TextureItem.IsLoaded] at hnl
  have hres : t.Load mf xf fm true (some (w, h)) (some handle) gpu =
      (true,
       { t with
          mIsLoaded := true
          mWidth := nextPow2 w
          mHeight := nextPow2 h
          mOriginalWidth := w
          mOriginalHeight := h
          mTextureID := handle },
       insert handle gpu) := by
    simp [TextureItem.Load, hnl]
  have hres2 : t.Load mf xf fm false (some (w, h)) (some handle) gpu =
      (true,
       { t with
          mIsLoaded := true
          mWidth := w
          mHeight := h
          mOriginalWidth := w
          mOriginalHeight := h
          mTextureID := handle },
       insert handle gpu) := by
    simp [TextureItem.Load, hnl]
  rw [hres, hres2]
  exact ⟨⟨rfl, nextPow2_isPow2 w, le_nextPow2 w,
    fun k hk => nextPow2_min w k hk, nextPow2_isPow2 h, le_nextPow2 h,
    fun k hk => nextPow2_min h k hk, rfl, rfl⟩, rfl, rfl, rfl, rfl, rfl⟩

/-- C2 witness: a 100×50 source yields original (100,50) and canonical
(128,64) with resizing, and (100,50)/(100,50) without. -/
theorem load_pow2_canonicalization_witness :
    (TextureItem.create "a.png").IsLoaded = false ∧
    ((TextureItem.create "a.png").Load 0 0 false true
        (some (100, 50)) (some 1) ∅).2.1.GetWidth = 128 ∧
    ((TextureItem.create "a.png").Load 0 0 false true
        (some (100, 50)) (some 1) ∅).2.1.GetHeight = 64 ∧
    ((TextureItem.create "a.png").Load 0 0 false true
        (some (100, 50)) (some 1) ∅).2.1.GetOriginalWidth = 100 ∧
    ((TextureItem.create "a.png").Load 0 0 false true
        (some (100, 50)) (some 1) ∅).2.1.GetOriginalHeight = 50 ∧
    ((TextureItem.create "a.png").Load 0 0 false false
        (some (100, 50)) (some 1) ∅).2.1.GetWidth = 100 ∧
    ((TextureItem.create "a.png").Load 0 0 false false
        (some (100, 50)) (some 1) ∅).2.1.GetHeight = 50 := by
  have h := load_pow2_canonicalization (TextureItem.create "a.png")
    0 0 false 100 50 1 ∅ rfl
  have hw : ((TextureItem.create "a.png").Load 0 0 false true
      (some (100, 50)) (some 1) ∅).2.1.GetWidth = nextPow2 100 := rfl
  have hh : ((TextureItem.create "a.png").Load 0 0 false true
      (some (100, 50)) (some 1) ∅).2.1.GetHeight = nextPow2 50 := rfl
  exact ⟨rfl, hw.trans nextPow2_100, hh.trans nextPow2_50,
    h.1.2.2.2.2.2.2.2.1, h.1.2.2.2.2.2.2.2.2, h.2.2.1, h.2.2.2.1⟩

/-! ### C3: state invariant -/

theorem nextPow2_pow (k : Nat) : nextPow2 (2 ^ k) = 2 ^ k :=
  le_antisymm (nextPow2_min _ k le_rfl) (le_nextPow2 _)

theorem inv_create (name : String) : (TextureItem.create name).Inv := by
  simp [TextureItem.Inv, TextureItem.create, sentinelTexture]

theorem inv_load (t : TextureItem) (mf xf : Nat) (fm rz : Bool)
    (d : Option (Nat × Nat)) (a : Option Nat) (gpu : Finset Nat)
    (hInv : t.Inv) (hc : ∀ hd, a = some hd → hd ≠ sentinelTexture) :
    (t.Load mf xf fm rz d a gpu).2.1.Inv := by
  unfold TextureItem.Load
  by_cases hl : t.mIsLoaded
  · simpa [hl] using hInv
  · cases d with
    | none => simpa [hl] using hInv
    | some p =>
      obtain ⟨w, h⟩ := p
      cases a with
      | none => simpa [hl] using hInv
      | some hd =>
        have hhd : hd ≠ sentinelTexture := hc hd rfl
        cases rz with
        | true => simpa [hl, TextureItem.Inv, hhd] using
            ⟨le_nextPow2 w, le_nextPow2 h⟩
        | false => simp [hl, TextureItem.Inv, hhd]

theorem inv_unload (t : TextureItem) (rel : Bool) (gpu : Finset Nat)
    (hInv : t.Inv) : (t.Unload rel gpu).2.1.Inv := by
  unfold TextureItem.Unload
  by_cases hl : t.mIsLoaded
  · cases rel with
    | true => simpa [hl, TextureItem.Inv] using ⟨hInv.1, hInv.2.1⟩
    | false => simpa [hl] using hInv
  · simpa [hl] using hInv

theorem inv_addImage (m : TextureManager) (name : String)
    (hm : m.Inv) : (m.AddImage name).2.Inv := by
  unfold TextureManager.AddImage
  cases hfind : findItem name m.mTextureMap with
  | some t => exact hm
  | none =>
    intro p hp
    rcases List.mem_cons.1 hp with h1 | h2
    · rw [h1]; exact inv_create name
    · exact hm p h2

theorem inv_removeImage (m : TextureManager) (name : String)
    (gpu : Finset Nat) (hm : m.Inv) : (m.RemoveImage name gpu).2.1.Inv := by
  unfold TextureManager.RemoveImage
  cases hfind : findItem name m.mTextureMap with
  | none => exact hm
  | some t =>
    intro p hp
    exact hm p (mem_eraseItem name m.mTextureMap p hp)

theorem inv_loadImage (m : TextureManager) (name : String) (mf xf : Nat)
    (fm rz : Bool) (d : Option (Nat × Nat)) (a : Option Nat)
    (gpu : Finset Nat) (hm : m.Inv)
    (hc : ∀ hd, a = some hd → hd ≠ sentinelTexture) :
    (m.LoadImage name mf xf fm rz d a gpu).2.1.Inv := by
  unfold TextureManager.LoadImage
  cases hfind : findItem name m.mTextureMap with
  | none =>
    intro p hp
    rcases List.mem_cons.1 hp with h1 | h2
    · rw [h1]
      exact inv_load _ mf xf fm rz d a gpu (inv_create name) hc
    · exact hm p h2
  | some t =>
    intro p hp
    rcases mem_updateItem name _ m.mTextureMap p hp with h1 | h2
    · rw [h1]
      exact inv_load t mf xf fm rz d a gpu
        (hm (name, t) (findItem_mem name t m.mTextureMap hfind)) hc
    · exact hm p h2

/-- C3: the state invariant of `TextureItem` — `mOriginalWidth ≤ mWidth`,
`mOriginalHeight ≤ mHeight`, with equality of both pairs when no resizing
occurred (resizing disabled, or dimensions already powers of two), and the
device handle non-sentinel iff `mIsLoaded` — is preserved by construction,
`Load`, `Unload`, and all manager operations acting on items, assuming the
device layer never returns the sentinel as a fresh handle. -/
theorem state_invariant_preserved :
    (∀ name, (TextureItem.create name).Inv) ∧
    (∀ (t : TextureItem) mf xf fm rz d a gpu, t.Inv →
      (∀ hd, a = some hd → hd ≠ sentinelTexture) →
      (t.Load mf xf fm rz d a gpu).2.1.Inv) ∧
    (∀ (t : TextureItem) rel gpu, t.Inv → (t.Unload rel gpu).2.1.Inv) ∧
    (∀ (t : TextureItem) mf xf fm (w h hd : Nat) gpu, t.IsLoaded = false →
      ((t.Load mf xf fm false (some (w, h)) (some hd) gpu).2.1.mWidth =
        (t.Load mf xf fm false (some (w, h)) (some hd) gpu).2.1.mOriginalWidth ∧
       (t.Load mf xf fm false (some (w, h)) (some hd) gpu).2.1.mHeight =
        (t.Load mf xf fm false (some (w, h)) (some hd) gpu).2.1.mOriginalHeight)) ∧
    (∀ (t : TextureItem) mf xf fm (j k hd : Nat) gpu, t.IsLoaded = false →
      ((t.Load mf xf fm true (some (2 ^ j, 2 ^ k)) (some hd) gpu).2.1.mWidth =
        (t.Load mf xf fm true (some (2 ^ j, 2 ^ k)) (some hd) gpu).2.1.mOriginalWidth ∧
       (t.Load mf xf fm true (some (2 ^ j, 2 ^ k)) (some hd) gpu).2.1.mHeight =
        (t.Load mf xf fm true (some (2 ^ j, 2 ^ k)) (some hd) gpu).2.1.mOriginalHeight)) ∧
    (∀ (m : TextureManager) name, m.Inv → (m.AddImage name).2.Inv) ∧
    (∀ (m : TextureManager) name gpu, m.Inv →
      (m.RemoveImage name gpu).2.1.Inv) ∧
    (∀ (m : TextureManager) name mf xf fm rz d a gpu, m.Inv →
      (∀ hd, a = some hd → hd ≠ sentinelTexture) →
      (m.LoadImage name mf xf fm rz d a gpu).2.1.Inv) := by
  refine ⟨inv_create,
    fun t mf xf fm rz d a gpu h hc => inv_load t mf xf fm rz d a gpu h hc,
    fun t rel gpu h => inv_unload t rel gpu h, ?_, ?_,
    fun m name h => inv_addImage m name h,
    fun m name gpu h => inv_removeImage m name gpu h,
    fun m name mf xf fm rz d a gpu h hc =>
      inv_loadImage m name mf xf fm rz d a gpu h hc⟩
  · intro t mf xf fm w h hd gpu hnl
    simp only [TextureItem.IsLoaded] at hnl
    constructor <;> simp [TextureItem.Load, hnl]
  · intro t mf xf fm j k hd gpu hnl
    simp only [TextureItem.IsLoaded] at hnl
    constructor <;> simp [TextureItem.Load, hnl, nextPow2_pow]

/-- C3 witness: the invariant at concrete items and operations. -/
theorem state_invariant_preserved_witness :
    (TextureItem.create "a.png").Inv ∧
    ((TextureItem.create "a.png").Load 0 0 false true (some (100, 50))
        (some 1) ∅).2.1.Inv ∧
    demoLoaded.Inv ∧
    (demoLoaded.Unload true ({1} : Finset Nat)).2.1.Inv := by
  have h := state_invariant_preserved
  have hdemo : demoLoaded.Inv := by
    simp [demoLoaded, TextureItem.Inv, sentinelTexture]
  refine ⟨h.1 "a.png", h.2.1 _ 0 0 false true _ _ ∅ (h.1 "a.png") ?_,
    hdemo, h.2.2.1 demoLoaded true {1} hdemo⟩
  intro hd hhd
  cases hhd
  simp [sentinelTexture]

/-! ### C4: unload contract, C5: load failure atomicity -/

theorem load_false_unchanged (t : TextureItem) (mf xf : Nat) (fm rz : Bool)
    (d : Option (Nat × Nat)) (a : Option Nat) (gpu : Finset Nat)
    (hfail : (t.Load mf xf fm rz d a gpu).1 = false) :
    t.Load mf xf fm rz d a gpu = (false, t, gpu) ∧ t.mIsLoaded = false := by
  unfold TextureItem.Load at hfail ⊢
  by_cases hl : t.mIsLoaded
  · simp [hl] at hfail
  · simp only [Bool.not_eq_true] at hl
    cases d with
    | none => simp [hl]
    | some p =>
      obtain ⟨w, h⟩ := p
      cases a with
      | none => simp [hl]
      | some hd => simp [hl] at hfail

/-- C4: `Unload` contract: on an unloaded item it returns true and
changes nothing; on a loaded item with successful device release it
clears the loaded flag, resets the handle to the sentinel, retains both
dimension pairs and returns true, and a subsequent successful `Load` of
the same source restores the loaded state with dimensions identical to
the first load; on device release failure it returns false and leaves the
item entirely unchanged (still loaded). -/
theorem unload_contract :
    (∀ (t : TextureItem) rel gpu, t.IsLoaded = false →
      t.Unload rel gpu = (true, t, gpu)) ∧
    (∀ (t : TextureItem) gpu, t.IsLoaded = true →
      (t.Unload true gpu).1 = true ∧
      (t.Unload true gpu).2.1.IsLoaded = false ∧
      (t.Unload true gpu).2.1.GetID = sentinelTexture ∧
      (t.Unload true gpu).2.1.GetWidth = t.GetWidth ∧
      (t.Unload true gpu).2.1.GetHeight = t.GetHeight ∧
      (t.Unload true gpu).2.1.GetOriginalWidth = t.GetOriginalWidth ∧
      (t.Unload true gpu).2.1.GetOriginalHeight = t.GetOriginalHeight ∧
      (t.Unload true gpu).2.1.GetImageName = t.GetImageName) ∧
    (∀ (t : TextureItem) gpu, t.IsLoaded = true →
      t.Unload false gpu = (false, t, gpu)) ∧
    (∀ (t : TextureItem) (mf xf mf2 xf2 w h hd1 hd2 : Nat) (fm rz fm2 : Bool)
        (gpu gpu2 gpu3 : Finset Nat), t.IsLoaded = false →
      ((((t.Load mf xf fm rz (some (w, h)) (some hd1) gpu).2.1.Unload true
          gpu2).2.1.Load mf2 xf2 fm2 rz (some (w, h)) (some hd2) gpu3).1 = true ∧
       (((t.Load mf xf fm rz (some (w, h)) (some hd1) gpu).2.1.Unload true
          gpu2).2.1.Load mf2 xf2 fm2 rz (some (w, h)) (some hd2) gpu3).2.1.IsLoaded = true ∧
       (((t.Load mf xf fm rz (some (w, h)) (some hd1) gpu).2.1.Unload true
          gpu2).2.1.Load mf2 xf2 fm2 rz (some (w, h)) (some hd2) gpu3).2.1.GetWidth =
         (t.Load mf xf fm rz (some (w, h)) (some hd1) gpu).2.1.GetWidth ∧
       (((t.Load mf xf fm rz (some (w, h)) (some hd1) gpu).2.1.Unload true
          gpu2).2.1.Load mf2 xf2 fm2 rz (some (w, h)) (some hd2) gpu3).2.1.GetHeight =
         (t.Load mf xf fm rz (some (w, h)) (some hd1) gpu).2.1.GetHeight ∧
       (((t.Load mf xf fm rz (some (w, h)) (some hd1) gpu).2.1.Unload true
          gpu2).2.1.Load mf2 xf2 fm2 rz (some (w, h)) (some hd2) gpu3).2.1.GetOriginalWidth =
         (t.Load mf xf fm rz (some (w, h)) (some hd1) gpu).2.1.GetOriginalWidth ∧
       (((t.Load mf xf fm rz (some (w, h)) (some hd1) gpu).2.1.Unload true
          gpu2).2.1.Load mf2 xf2 fm2 rz (some (w, h)) (some hd2) gpu3).2.1.GetOriginalHeight =
         (t.Load mf xf fm rz (some (w, h)) (some hd1) gpu).2.1.GetOriginalHeight)) := by
  refine ⟨?_, ?_, ?_, ?_⟩
  · intro t rel gpu hnl
    simp only [TextureItem.IsLoaded] at hnl
    simp [TextureItem.Unload, hnl]
  · intro t gpu hl
    simp only [TextureItem.IsLoaded] at hl
    simp [TextureItem.Unload, hl, TextureItem.IsLoaded, TextureItem.GetID,
      TextureItem.GetWidth, TextureItem.GetHeight, TextureItem.GetOriginalWidth,
      TextureItem.GetOriginalHeight, TextureItem.GetImageName]
  · intro t gpu hl
    simp only [TextureItem.IsLoaded] at hl
    simp [TextureItem.Unload, hl]
  · intro t mf xf mf2 xf2 w h hd1 hd2 fm rz fm2 gpu gpu2 gpu3 hnl
    simp only [TextureItem.IsLoaded] at hnl
    simp [TextureItem.Load, TextureItem.Unload, hnl, TextureItem.IsLoaded,
      TextureItem.GetWidth, TextureItem.GetHeight, TextureItem.GetOriginalWidth,
      TextureItem.GetOriginalHeight]

/-- C4 witness: concrete unloaded and loaded items. -/
theorem unload_contract_witness :
    (TextureItem.create "b.png").IsLoaded = false ∧
    (TextureItem.create "b.png").Unload true ∅ =
      (true, TextureItem.create "b.png", ∅) ∧
    demoLoaded.IsLoaded = true ∧
    (demoLoaded.Unload true ({1} : Finset Nat)).1 = true ∧
    (demoLoaded.Unload true ({1} : Finset Nat)).2.1.IsLoaded = false ∧
    demoLoaded.Unload false ({1} : Finset Nat) =
      (false, demoLoaded, ({1} : Finset Nat)) := by
  have h := unload_contract
  exact ⟨rfl, h.1 _ true ∅ rfl, rfl, (h.2.1 demoLoaded {1} rfl).1,
    (h.2.1 demoLoaded {1} rfl).2.1, h.2.2.1 demoLoaded {1} rfl⟩

/-- C5: load failure atomicity: for an unloaded item, decoder failure or
device allocation failure makes `Load` return false with the item state
and the set of allocated device handles unchanged (no partial state, no
leaked resource); at the manager level a failed `LoadImage` leaves the
name registered with a not-loaded item and the device handle set
unchanged, so the same call can be retried. -/
theorem load_failure_atomic :
    (∀ (t : TextureItem) mf xf fm rz a gpu, t.IsLoaded = false →
      t.Load mf xf fm rz none a gpu = (false, t, gpu)) ∧
    (∀ (t : TextureItem) mf xf fm rz d gpu, t.IsLoaded = false →
      t.Load mf xf fm rz d none gpu = (false, t, gpu)) ∧
    (∀ (m : TextureManager) name mf xf fm rz d a gpu,
      (m.LoadImage name mf xf fm rz d a gpu).1 = false →
      ∃ t', findItem name (m.LoadImage name mf xf fm rz d a gpu).2.1.mTextureMap =
          some t' ∧ t'.IsLoaded = false ∧
        (m.LoadImage name mf xf fm rz d a gpu).2.2 = gpu) := by
  refine ⟨?_, ?_, ?_⟩
  · intro t mf xf fm rz a gpu hnl
    simp only [TextureItem.IsLoaded] at hnl
    simp [TextureItem.Load, hnl]
  · intro t mf xf fm rz d gpu hnl
    simp only [TextureItem.IsLoaded] at hnl
    cases d with
    | none => simp [TextureItem.Load, hnl]
    | some p => obtain ⟨w, h⟩ := p; simp [TextureItem.Load, hnl]
  · intro m name mf xf fm rz d a gpu hfail
    unfold TextureManager.LoadImage at hfail ⊢
    cases hfind : findItem name m.mTextureMap with
    | none =>
      simp only [hfind] at hfail ⊢
      obtain ⟨heq, hnl⟩ := load_false_unchanged _ mf xf fm rz d a gpu hfail
      refine ⟨TextureItem.create name, ?_, hnl, ?_⟩
      · simp [findItem, heq]
      · simp [heq]
    | some t =>
      simp only [hfind] at hfail ⊢
      obtain ⟨heq, hnl⟩ := load_false_unchanged t mf xf fm rz d a gpu hfail
      refine ⟨t, ?_, hnl, ?_⟩
      · rw [heq]
        exact findItem_updateItem name t t m.mTextureMap hfind
      · simp [heq]

/-- C5 witness: decoder failure and allocation failure on concrete
inputs. -/
theorem load_failure_atomic_witness :
    (TextureItem.create "c.png").IsLoaded = false ∧
    (TextureItem.create "c.png").Load 0 0 false true none (some 5) ∅ =
      (false, TextureItem.create "c.png", ∅) ∧
    (TextureItem.create "c.png").Load 0 0 false true (some (100, 50)) none ∅ =
      (false, TextureItem.create "c.png", ∅) ∧
    ((⟨[]⟩ : TextureManager).LoadImage "c.png" 0 0 false true none (some 5) ∅).1
      = false ∧
    (∃ t', findItem "c.png"
        ((⟨[]⟩ : TextureManager).LoadImage "c.png" 0 0 false true none
          (some 5) ∅).2.1.mTextureMap = some t' ∧ t'.IsLoaded = false ∧
      ((⟨[]⟩ : TextureManager).LoadImage "c.png" 0 0 false true none
        (some 5) ∅).2.2 = ∅) := by
  have h := load_failure_atomic
  refine ⟨rfl, h.1 _ 0 0 false true (some 5) ∅ rfl,
    h.2.1 _ 0 0 false true (some (100, 50)) ∅ rfl, rfl, ?_⟩
  exact h.2.2 ⟨[]⟩ "c.png" 0 0 false true none (some 5) ∅ rfl

/-! ### C6-C9: manager operation contracts -/

/-- C6: `AddImage` contract: a name already present yields false and
creates nothing; an absent name yields true and inserts a new
not-yet-loaded item keyed by the filename; two consecutive `AddImage`
calls with the same name return false the second time, change nothing the
second time, and leave exactly one entry for that name. -/
theorem addImage_contract :
    (∀ (m : TextureManager) name t, findItem name m.mTextureMap = some t →
      m.AddImage name = (false, m)) ∧
    (∀ (m : TextureManager) name, findItem name m.mTextureMap = none →
      (m.AddImage name).1 = true ∧
      findItem name (m.AddImage name).2.mTextureMap =
        some (TextureItem.create name) ∧
      (TextureItem.create name).IsLoaded = false) ∧
    (∀ (m : TextureManager) name, findItem name m.mTextureMap = none →
      ((m.AddImage name).2.AddImage name).1 = false ∧
      ((m.AddImage name).2.AddImage name).2 = (m.AddImage name).2 ∧
      countKey name ((m.AddImage name).2.AddImage name).2.mTextureMap = 1) := by
  refine ⟨?_, ?_, ?_⟩
  · intro m name t h
    simp [TextureManager.AddImage, h]
  · intro m name h
    refine ⟨?_, ?_, rfl⟩ <;> simp [TextureManager.AddImage, h, findItem]
  · intro m name h
    have h2 : findItem name
        ((name, TextureItem.create name) :: m.mTextureMap) =
        some (TextureItem.create name) := by simp [findItem]
    simp [TextureManager.AddImage, h, h2, countKey,
      findItem_none_countKey name m.mTextureMap h]

/-- C6 witness: double registration on an empty manager. -/
theorem addImage_contract_witness :
    findItem "d.png" (⟨[]⟩ : TextureManager).mTextureMap = none ∧
    ((⟨[]⟩ : TextureManager).AddImage "d.png").1 = true ∧
    (((⟨[]⟩ : TextureManager).AddImage "d.png").2.AddImage "d.png").1 = false ∧
    countKey "d.png"
      (((⟨[]⟩ : TextureManager).AddImage "d.png").2.AddImage
        "d.png").2.mTextureMap = 1 := by
  have h := addImage_contract
  exact ⟨rfl, (h.2.1 ⟨[]⟩ "d.png" rfl).1, (h.2.2 ⟨[]⟩ "d.png" rfl).1,
    (h.2.2 ⟨[]⟩ "d.png" rfl).2.2⟩

/-- C7: `RemoveImage` contract: an absent name yields false with the
manager and device state unchanged; a present name yields true, the entry
is unloaded first (its device handle is released from the allocated set
when it was loaded) and erased, and a subsequent `GetTextureItemPtr` for
that name returns none. -/
theorem removeImage_contract :
    (∀ (m : TextureManager) name gpu, findItem name m.mTextureMap = none →
      m.RemoveImage name gpu = (false, m, gpu)) ∧
    (∀ (m : TextureManager) name gpu t, findItem name m.mTextureMap = some t →
      (m.RemoveImage name gpu).1 = true ∧
      (m.RemoveImage name gpu).2.1.GetTextureItemPtr name = none ∧
      (t.IsLoaded = true →
        (m.RemoveImage name gpu).2.2 = gpu.erase t.GetID ∧
        t.GetID ∉ (m.RemoveImage name gpu).2.2) ∧
      (t.IsLoaded = false → (m.RemoveImage name gpu).2.2 = gpu)) := by
  refine ⟨?_, ?_⟩
  · intro m name gpu h
    simp [TextureManager.RemoveImage, h]
  · intro m name gpu t h
    refine ⟨by simp [TextureManager.RemoveImage, h], ?_, ?_, ?_⟩
    · simp [TextureManager.RemoveImage, h, TextureManager.GetTextureItemPtr,
        findItem_eraseItem_self]
    · intro hl
      simp only [TextureItem.IsLoaded] at hl
      constructor
      · simp [TextureManager.RemoveImage, h, TextureItem.Unload, hl,
          TextureItem.GetID]
      · simp [TextureManager.RemoveImage, h, TextureItem.Unload, hl,
          TextureItem.GetID, Finset.not_mem_erase]
    · intro hnl
      simp only [TextureItem.IsLoaded] at hnl
      simp [TextureManager.RemoveImage, h, TextureItem.Unload, hnl]

/-- C7 witness: removing a loaded item releases its handle and empties
the lookup. -/
theorem removeImage_contract_witness :
    findItem "a.png" (⟨[("a.png", demoLoaded)]⟩ : TextureManager).mTextureMap =
      some demoLoaded ∧
    ((⟨[("a.png", demoLoaded)]⟩ : TextureManager).RemoveImage "a.png"
      ({1} : Finset Nat)).1 = true ∧
    ((⟨[("a.png", demoLoaded)]⟩ : TextureManager).RemoveImage "a.png"
      ({1} : Finset Nat)).2.1.GetTextureItemPtr "a.png" = none ∧
    demoLoaded.GetID ∉
      ((⟨[("a.png", demoLoaded)]⟩ : TextureManager).RemoveImage "a.png"
        ({1} : Finset Nat)).2.2 := by
  have h := (removeImage_contract.2 ⟨[("a.png", demoLoaded)]⟩ "a.png"
    {1} demoLoaded (by simp [findItem]))
  exact ⟨by simp [findItem], h.1, h.2.1, (h.2.2.1 rfl).2⟩

/-- C8: `LoadImage` contract: on an unregistered name it registers the
name as a side effect and returns the outcome of loading the fresh item;
on a registered already-loaded item it returns true without re-loading
(no device allocation); on any registered entry it returns the underlying
load outcome and the entry remains registered afterwards; and when the
underlying load of a registered entry fails, `LoadImage` returns false
while the entry stays registered, unchanged and not loaded
(metadata-only), so a later retry needs no re-adding. -/
theorem loadImage_contract :
    (∀ (m : TextureManager) name mf xf fm rz d a gpu,
      findItem name m.mTextureMap = none →
      (m.LoadImage name mf xf fm rz d a gpu).1 =
        ((TextureItem.create name).Load mf xf fm rz d a gpu).1 ∧
      findItem name (m.LoadImage name mf xf fm rz d a gpu).2.1.mTextureMap =
        some ((TextureItem.create name).Load mf xf fm rz d a gpu).2.1) ∧
    (∀ (m : TextureManager) name t mf xf fm rz d a gpu,
      findItem name m.mTextureMap = some t → t.IsLoaded = true →
      (m.LoadImage name mf xf fm rz d a gpu).1 = true ∧
      (m.LoadImage name mf xf fm rz d a gpu).2.2 = gpu ∧
      findItem name (m.LoadImage name mf xf fm rz d a gpu).2.1.mTextureMap =
        some t) ∧
    (∀ (m : TextureManager) name t mf xf fm rz d a gpu,
      findItem name m.mTextureMap = some t →
      (m.LoadImage name mf xf fm rz d a gpu).1 =
        (t.Load mf xf fm rz d a gpu).1 ∧
      ∃ t2, findItem name
        (m.LoadImage name mf xf fm rz d a gpu).2.1.mTextureMap = some t2) ∧
    (∀ (m : TextureManager) name t mf xf fm rz d a gpu,
      findItem name m.mTextureMap = some t →
      (t.Load mf xf fm rz d a gpu).1 = false →
      (m.LoadImage name mf xf fm rz d a gpu).1 = false ∧
      findItem name (m.LoadImage name mf xf fm rz d a gpu).2.1.mTextureMap =
        some t ∧
      t.IsLoaded = false ∧
      (m.LoadImage name mf xf fm rz d a gpu).2.2 = gpu) := by
  refine ⟨?_, ?_, ?_, ?_⟩
  · intro m name mf xf fm rz d a gpu h
    constructor
    · simp [TextureManager.LoadImage, h]
    · simp [TextureManager.LoadImage, h, findItem]
  · intro m name t mf xf fm rz d a gpu h hl
    simp only [TextureItem.IsLoaded] at hl
    have hload : t.Load mf xf fm rz d a gpu = (true, t, gpu) := by
      simp [TextureItem.Load, hl]
    refine ⟨?_, ?_, ?_⟩
    · simp [TextureManager.LoadImage, h, hload]
    · simp [TextureManager.LoadImage, h, hload]
    · simp only [TextureManager.LoadImage, h, hload]
      exact findItem_updateItem name t t m.mTextureMap h
  · intro m name t mf xf fm rz d a gpu h
    refine ⟨?_, (t.Load mf xf fm rz d a gpu).2.1, ?_⟩
    · simp [TextureManager.LoadImage, h]
    · simp only [TextureManager.LoadImage, h]
      exact findItem_updateItem name _ t m.mTextureMap h
  · intro m name t mf xf fm rz d a gpu h hfail
    obtain ⟨heq, hnl⟩ := load_false_unchanged t mf xf fm rz d a gpu hfail
    refine ⟨?_, ?_, ?_, ?_⟩
    · simp [TextureManager.LoadImage, h, heq]
    · simp only [TextureManager.LoadImage, h, heq]
      exact findItem_updateItem name t t m.mTextureMap h
    · simpa [TextureItem.IsLoaded] using hnl
    · simp [TextureManager.LoadImage, h, heq]

/-- C8 witness: loading an unregistered name registers it; loading a
registered loaded item returns true with no allocation; a failing load of
a registered not-loaded entry returns false and keeps the entry
registered, unchanged and not loaded. -/
theorem loadImage_contract_witness :
    findItem "e.png" (⟨[]⟩ : TextureManager).mTextureMap = none ∧
    ((⟨[]⟩ : TextureManager).LoadImage "e.png" 0 0 false true (some (8, 8))
        (some 3) ∅).1 =
      ((TextureItem.create "e.png").Load 0 0 false true (some (8, 8))
        (some 3) ∅).1 ∧
    (∃ t2, findItem "e.png"
        ((⟨[]⟩ : TextureManager).LoadImage "e.png" 0 0 false true
          (some (8, 8)) (some 3) ∅).2.1.mTextureMap = some t2) ∧
    ((⟨[("a.png", demoLoaded)]⟩ : TextureManager).LoadImage "a.png" 0 0
        false true (some (8, 8)) (some 3) ({1} : Finset Nat)).1 = true ∧
    ((⟨[("a.png", demoLoaded)]⟩ : TextureManager).LoadImage "a.png" 0 0
        false true (some (8, 8)) (some 3) ({1} : Finset Nat)).2.2 =
      ({1} : Finset Nat) ∧
    findItem "f.png"
      (⟨[("f.png", TextureItem.create "f.png")]⟩ : TextureManager).mTextureMap =
      some (TextureItem.create "f.png") ∧
    ((TextureItem.create "f.png").Load 0 0 false true none (some 9) ∅).1 =
      false ∧
    ((⟨[("f.png", TextureItem.create "f.png")]⟩ : TextureManager).LoadImage
        "f.png" 0 0 false true none (some 9) ∅).1 = false ∧
    findItem "f.png"
      ((⟨[("f.png", TextureItem.create "f.png")]⟩ : TextureManager).LoadImage
        "f.png" 0 0 false true none (some 9) ∅).2.1.mTextureMap =
      some (TextureItem.create "f.png") ∧
    (TextureItem.create "f.png").IsLoaded = false := by
  have h1 := loadImage_contract.1 ⟨[]⟩ "e.png" 0 0 false true (some (8, 8))
    (some 3) ∅ rfl
  have h2 := loadImage_contract.2.1 ⟨[("a.png", demoLoaded)]⟩ "a.png"
    demoLoaded 0 0 false true (some (8, 8)) (some 3) {1}
    (by simp [findItem]) rfl
  have hfind : findItem "f.png"
      (⟨[("f.png", TextureItem.create "f.png")]⟩ : TextureManager).mTextureMap =
      some (TextureItem.create "f.png") := by simp [findItem]
  have h3 := loadImage_contract.2.2.2 ⟨[("f.png", TextureItem.create "f.png")]⟩
    "f.png" (TextureItem.create "f.png") 0 0 false true none (some 9) ∅
    hfind rfl
  exact ⟨rfl, h1.1, ⟨_, (h1.2 : _)⟩, h2.1, h2.2.1, hfind, rfl, h3.1, h3.2.1,
    h3.2.2.1⟩

/-- C9: `GetTextureItemPtr` contract: it returns some item iff the name
is a key of the manager's map, the returned item is exactly the
registered entry, and on an absent key it returns none; being a pure
lookup it neither loads the item nor modifies the map. -/
theorem getTextureItemPtr_contract :
    (∀ (m : TextureManager) name,
      (m.GetTextureItemPtr name).isSome = true ↔
        name ∈ m.mTextureMap.map Prod.fst) ∧
    (∀ (m : TextureManager) name t, m.GetTextureItemPtr name = some t →
      (name, t) ∈ m.mTextureMap) ∧
    (∀ (m : TextureManager) name, name ∉ m.mTextureMap.map Prod.fst →
      m.GetTextureItemPtr name = none) := by
  refine ⟨?_, ?_, ?_⟩
  · intro m name
    exact findItem_isSome_iff name m.mTextureMap
  · intro m name t h
    exact findItem_mem name t m.mTextureMap h
  · intro m name h
    cases hr : findItem name m.mTextureMap with
    | none => exact hr
    | some t =>
      exact absurd ((findItem_isSome_iff name m.mTextureMap).1
        (by simp [hr])) h

/-- C9 witness: lookup on a present and an absent key. -/
theorem getTextureItemPtr_contract_witness :
    (((⟨[("a.png", demoLoaded)]⟩ : TextureManager).GetTextureItemPtr
        "a.png").isSome = true ↔
      "a.png" ∈ ([("a.png", demoLoaded)] : TextureMap).map Prod.fst) ∧
    ("a.png", demoLoaded) ∈ ([("a.png", demoLoaded)] : TextureMap) ∧
    ("z.png" ∉ ([("a.png", demoLoaded)] : TextureMap).map Prod.fst) ∧
    (⟨[("a.png", demoLoaded)]⟩ : TextureManager).GetTextureItemPtr "z.png" =
      none := by
  have h := getTextureItemPtr_contract
  have hz : "z.png" ∉ ([("a.png", demoLoaded)] : TextureMap).map Prod.fst := by
    simp
  exact ⟨h.1 ⟨[("a.png", demoLoaded)]⟩ "a.png",
    h.2.1 ⟨[("a.png", demoLoaded)]⟩ "a.png" demoLoaded (by
      simp [TextureManager.GetTextureItemPtr, findItem]),
    hz, h.2.2 ⟨[("a.png", demoLoaded)]⟩ "z.png" hz⟩

/-! ### C10: accessor purity -/

theorem applyOp_name (s : TextureItem × Finset Nat) (op : ItemOp) :
    (applyOp s op).1.mImageFileName = s.1.mImageFileName := by
  cases op with
  | load mf xf fm rz d a =>
    show (s.1.Load mf xf fm rz d a s.2).2.1.mImageFileName = _
    unfold TextureItem.Load
    by_cases hl : s.1.mIsLoaded
    · simp [hl]
    · cases d with
      | none => simp [hl]
      | some p =>
        obtain ⟨w, h⟩ := p
        cases a with
        | none => simp [hl]
        | some hd => simp [hl]
  | unload rel =>
    show (s.1.Unload rel s.2).2.1.mImageFileName = _
    unfold TextureItem.Unload
    by_cases hl : s.1.mIsLoaded
    · cases rel with
      | true => simp [hl]
      | false => simp [hl]
    · simp [hl]

theorem applyOps_name (ops : List ItemOp) (s : TextureItem × Finset Nat) :
    (applyOps s ops).1.mImageFileName = s.1.mImageFileName := by
  induction ops generalizing s with
  | nil => rfl
  | cons op rest ih =>
    show (applyOps (applyOp s op) rest).1.mImageFileName = _
    rw [ih (applyOp s op), applyOp_name]

/-- C10: the accessors `GetImageName`, `GetWidth`, `GetHeight`,
`GetOriginalWidth`, `GetOriginalHeight`, `GetID`, `IsLoaded` are pure
observers returning the stored fields directly (so observing never
changes the item), and after any sequence of `Load`/`Unload` operations
`GetImageName` still returns exactly the filename passed at
construction. -/
theorem accessors_pure :
    (∀ t : TextureItem, t.GetImageName = t.mImageFileName ∧
      t.GetWidth = t.mWidth ∧ t.GetHeight = t.mHeight ∧
      t.GetOriginalWidth = t.mOriginalWidth ∧
      t.GetOriginalHeight = t.mOriginalHeight ∧
      t.GetID = t.mTextureID ∧ t.IsLoaded = t.mIsLoaded) ∧
    (∀ (name : String) (gpu : Finset Nat) (ops : List ItemOp),
      (applyOps (TextureItem.create name, gpu) ops).1.GetImageName = name) :=
  ⟨fun t => ⟨rfl, rfl, rfl, rfl, rfl, rfl, rfl⟩,
   fun name gpu ops => applyOps_name ops (TextureItem.create name, gpu)⟩

end PGE
